import Mathlib

/-!
Verification development for the Databricks classroom bootstrap/teardown
scripts (`Includes/Reset.py` and `Solutions/Includes/_dbacademy_helper.py`).

The Python code is embedded as pure Lean functions.  Interaction with the
external Spark engine is modelled as a trace of `Effect` values: every SQL
statement, cache clear, stream stop, configuration write or filesystem
delete that the code would issue appears in the trace, in the order the code
issues it.  The `SHOW DATABASES` result for each catalog is supplied as a
function `dbs : String → List String` (catalog name to the list of database
names it contains), and the set of active streaming queries is supplied as a
list of `StreamQuery` values.
-/

/-- ASCII alphanumeric test, mirroring the character class `[a-zA-Z0-9]`
used by both `re.sub` calls in the Python sources. -/
def isAlnumAscii (c : Char) : Bool :=
  (decide (97 ≤ c.toNat) && decide (c.toNat ≤ 122)) ||
  (decide (65 ≤ c.toNat) && decide (c.toNat ≤ 90)) ||
  (decide (48 ≤ c.toNat) && decide (c.toNat ≤ 57))

/-- Character-list scan performed by `re.sub("[^a-zA-Z0-9]", "_", s)`:
each character not matching `[a-zA-Z0-9]` is replaced by an underscore,
every other character is emitted unchanged. -/
def reSubNonAlnum : List Char → List Char
  | [] => []
  | c :: rest => (if isAlnumAscii c then c else '_') :: reSubNonAlnum rest

/-- The substitution `re.sub("[^a-zA-Z0-9]", "_", s)` on strings. -/
def sanitize (s : String) : String :=
  ⟨reSubNonAlnum s.data⟩

/-- ASCII case folding of one character, as `str.lower()` acts on the
ASCII range. -/
def lowerChar (c : Char) : Char :=
  if 65 ≤ c.toNat ∧ c.toNat ≤ 90 then Char.ofNat (c.toNat + 32) else c

/-- Python `str.lower()` restricted to the ASCII range. -/
def lowerPy (s : String) : String :=
  ⟨s.data.map lowerChar⟩

/-- Python `s.startswith(p)`: `p` is a prefix of `s`. -/
def pyStartswith (s p : String) : Bool :=
  p.data.isPrefixOf s.data

/-- One active structured-streaming query, as seen through
`spark.streams.active`.  `awaitRaises` records whether this stream's
`awaitTermination()` call raises. -/
structure StreamQuery where
  name : String
  awaitRaises : Bool
deriving DecidableEq

/-- Model of `stream.awaitTermination()`: raises exactly when the stream is marked
as raising. -/
def awaitTermination (s : StreamQuery) : Except String Unit :=
  if s.awaitRaises then Except.error ("awaitTermination failed: " ++ s.name)
  else Except.ok ()

/-- One observable action issued against the external platform. -/
inductive Effect where
  | useCatalog (c : String)
  | useDb (db : String)
  | createDb (c : String) (db : String)
  | dropDb (c : String) (db : String)
  | clearCache
  | stopStream (name : String)
  | confSet (k : String) (v : String)
  | fsRm (path : String) (recurse : Bool)
deriving DecidableEq

/-- Does the effect correspond to a SQL statement sent to the engine
(`USE CATALOG`, `USE`, `CREATE DATABASE`, `DROP DATABASE`)? -/
def isSqlEffect : Effect → Bool
  | Effect.useCatalog _ => true
  | Effect.useDb _ => true
  | Effect.createDb _ _ => true
  | Effect.dropDb _ _ => true
  | _ => false

/-- The engine-side session state touched by the helper: active catalog,
active database, the databases of every catalog (association list from
catalog name to database names), and the session configuration. -/
structure SessionState where
  activeCatalog : String
  activeDb : String
  databases : List (String × List String)
  conf : List (String × String)
deriving DecidableEq

/-- Database names currently in catalog `c`. -/
def SessionState.dbsOf (st : SessionState) (c : String) : List String :=
  match st.databases.find? (fun p => p.1 == c) with
  | some p => p.2
  | none => []

/-- Replace the database list of catalog `c`. -/
def setDbsOf (l : List (String × List String)) (c : String)
    (v : List String) : List (String × List String) :=
  match l with
  | [] => [(c, v)]
  | p :: rest => if p.1 == c then (c, v) :: rest else p :: setDbsOf rest c v

/-- Engine semantics of one effect. -/
def applyEffect (st : SessionState) : Effect → SessionState
  | Effect.useCatalog c => ⟨c, st.activeDb, st.databases, st.conf⟩
  | Effect.useDb db => ⟨st.activeCatalog, db, st.databases, st.conf⟩
  | Effect.createDb c db =>
      if db ∈ st.dbsOf c then st
      else ⟨st.activeCatalog, st.activeDb,
            setDbsOf st.databases c (st.dbsOf c ++ [db]), st.conf⟩
  | Effect.dropDb c db =>
      ⟨st.activeCatalog, st.activeDb,
       setDbsOf st.databases c ((st.dbsOf c).filter (fun n => n != db)),
       st.conf⟩
  | Effect.clearCache => st
  | Effect.stopStream _ => st
  | Effect.confSet k v =>
      ⟨st.activeCatalog, st.activeDb, st.databases, (k, v) :: st.conf⟩
  | Effect.fsRm _ _ => st

/-- Engine semantics of a trace, applied left to right. -/
def applyTrace (st : SessionState) : List Effect → SessionState
  | [] => st
  | e :: rest => applyTrace (applyEffect st e) rest

/-- The attribute record built by `DBAcademyHelper.__init__` (and mutated
only by `init`, which sets `create_db`). -/
structure DBAcademyHelper where
  course_name : String
  lesson : Option String
  catalog : String
  catalogs : List String
  username : String
  db_name_prefix : String
  source_db_name : Option String
  working_dir_prefix : String
  db_name : String
  create_db : Option Bool
deriving DecidableEq

/-- Embedding of `DBAcademyHelper.__init__(lesson, catalog)`.  The username is the
result of the engine's `SELECT current_user()` query, passed in as an
argument.  Mirrors `_dbacademy_helper.py` lines 3-30 field by field
(the wall-clock `start` timestamp is not modelled). -/
def construct (username : String) (lesson : Option String)
    (catalog : String) : DBAcademyHelper :=
  let course_name := "ncouc"
  let catalogs :=
    if catalog = "hive_metastore" then ["hive_metastore"]
    else [catalog, "hive_metastore"]
  let clean_username := sanitize username
  let dnp := "dbacademy_" ++ clean_username ++ "_" ++ course_name
  let wdp := "dbfs:/user/" ++ username ++ "/dbacademy/" ++ course_name
  match lesson with
  | some l =>
      if l ≠ "" then
        let lessonLower := lowerPy l
        let clean_lesson := sanitize lessonLower
        ⟨course_name, some lessonLower, catalog, catalogs, username, dnp,
         none, wdp, dnp ++ "_" ++ clean_lesson, none⟩
      else
        ⟨course_name, some l, catalog, catalogs, username, dnp,
         none, wdp, dnp, none⟩
  | none =>
      ⟨course_name, none, catalog, catalogs, username, dnp,
       none, wdp, dnp, none⟩

/-- The helper with its `create_db` attribute assigned. -/
def setCreateDb (h : DBAcademyHelper) (b : Bool) : DBAcademyHelper :=
  ⟨h.course_name, h.lesson, h.catalog, h.catalogs, h.username,
   DBAcademyHelper.db_name_prefix h, h.source_db_name,
   DBAcademyHelper.working_dir_prefix h, h.db_name, some b⟩

/-- Embedding of `DBAcademyHelper.init(create_db)`: clears the engine cache, records the
flag, and if `create_db` creates `{c}.{db_name}` for every catalog `c` and
selects the helper's catalog and database.  Returns the updated helper and
the trace of issued effects. -/
def DBAcademyHelper.init (h : DBAcademyHelper) (create_db : Bool) :
    DBAcademyHelper × List Effect :=
  (setCreateDb h create_db,
   Effect.clearCache ::
     (if create_db then
        (h.catalogs.map (fun c => Effect.createDb c h.db_name)) ++
          [Effect.useCatalog h.catalog, Effect.useDb h.db_name]
      else []))

/-- The stream-stopping loop of `cleanup`: each active stream is stopped,
then its `awaitTermination()` is called inside `try .. except: pass`, so
any error it raises is discarded and the loop continues. -/
def stopAllStreams : List StreamQuery → Except String (List Effect)
  | [] => Except.ok []
  | s :: rest => do
      let _ ← (match awaitTermination s with
               | Except.ok _ => (Except.ok () : Except String Unit)
               | Except.error _ => Except.ok ())  -- bury any exceptions
      let es ← stopAllStreams rest
      pure (Effect.stopStream s.name :: es)

/-- The database-dropping phase of `cleanup`: for each catalog select it,
and if the filtered `SHOW DATABASES` count for `db_name` is exactly 1,
drop `db_name` (cascading) in that catalog. -/
def cleanupDrops (h : DBAcademyHelper) (dbs : String → List String) :
    List Effect :=
  h.catalogs.flatMap (fun c =>
    Effect.useCatalog c ::
      (if ((dbs c).filter (fun n => n == h.db_name)).length = 1 then
        [Effect.dropDb c h.db_name]
      else []))

/-- Embedding of `DBAcademyHelper.cleanup()`: stop all active streams (burying
`awaitTermination` errors), then run the drop phase.  The helper's
attributes are not modified. -/
def DBAcademyHelper.cleanup (h : DBAcademyHelper)
    (streams : List StreamQuery) (dbs : String → List String) :
    Except String (DBAcademyHelper × List Effect) := do
  let streamTrace ← stopAllStreams streams
  pure (h, streamTrace ++ cleanupDrops h dbs)

/-- Embedding of `DBAcademyHelper.conclude_setup()`: writes `da.catalog` and
`da.db_name` into the session configuration (the elapsed-time print is
not an engine effect).  The helper is unchanged. -/
def DBAcademyHelper.conclude_setup (h : DBAcademyHelper) :
    DBAcademyHelper × List Effect :=
  (h, [Effect.confSet "da.catalog" h.catalog,
       Effect.confSet "da.db_name" h.db_name])

/-- The main loop of `Reset.py` plus the final recursive delete: for each
catalog of the helper, select it, list its databases, and drop each one
whose name starts with the helper's `db_name_prefix`; finally remove the
working directory recursively. -/
def resetTrace (h : DBAcademyHelper) (dbs : String → List String) :
    List Effect :=
  (h.catalogs.flatMap (fun c =>
    Effect.useCatalog c ::
      (dbs c).flatMap (fun db =>
        if pyStartswith db ( DBAcademyHelper.db_name_prefix h) then
          [Effect.dropDb c db]
        else []))) ++
  [Effect.fsRm ( DBAcademyHelper.working_dir_prefix h) true]

/-! ### Helper lemmas -/

theorem pyStartswith_of_prefix {p s : String} (h : p.data <+: s.data) :
    pyStartswith s p = true :=
  List.isPrefixOf_iff_prefix.mpr h

theorem pyStartswith_refl (p : String) : pyStartswith p p = true :=
  pyStartswith_of_prefix (List.prefix_refl _)

theorem reSubNonAlnum_eq_map (l : List Char) :
    reSubNonAlnum l = l.map (fun c => if isAlnumAscii c then c else '_') := by
  induction l with
  | nil => rfl
  | cons c rest ih => simp [reSubNonAlnum, ih]

theorem stopAllStreams_ok (streams : List StreamQuery) :
    stopAllStreams streams =
      Except.ok (streams.map (fun s => Effect.stopStream s.name)) := by
  induction streams with
  | nil => rfl
  | cons s rest ih =>
      unfold stopAllStreams
      cases hs : awaitTermination s <;> simp [hs, ih] <;> rfl

theorem cleanup_eq (h : DBAcademyHelper) (streams : List StreamQuery)
    (dbs : String → List String) :
    DBAcademyHelper.cleanup h streams dbs =
      Except.ok (h, streams.map (fun s => Effect.stopStream s.name) ++
        cleanupDrops h dbs) := by
  simp [DBAcademyHelper.cleanup, stopAllStreams_ok]

/-! ### Claims -/

/-- C2: for every user identity, every catalog value, and every lesson value
including absent, the `db_name` computed at helper construction has
`db_name_prefix` as a prefix. -/
theorem db_name_starts_with_db_name_prefix (u : String) (l : Option String)
    (cat : String) :
    pyStartswith ((construct u l cat).db_name)
      ( DBAcademyHelper.db_name_prefix (construct u l cat)) = true := by
  cases l with
  | none => exact pyStartswith_refl _
  | some s =>
      by_cases hs : s = ""
      · subst hs
        exact pyStartswith_refl _
      · apply pyStartswith_of_prefix
        simp only [construct, hs, ne_eq, not_false_iff, if_true]
        exact ⟨"_".data ++ (sanitize (lowerPy s)).data,
          by simp [String.data_append]⟩

/-- C3: sanitization maps each character independently: every character in
`[a-zA-Z0-9]` is kept unchanged at its position and every other character
becomes `'_'` at its position; the length is preserved. -/
theorem sanitize_char_spec (s : String) (i : Nat) (c : Char)
    (h : s.data[i]? = some c) :
    (sanitize s).data.length = s.data.length ∧
    (sanitize s).data[i]? = some (if isAlnumAscii c then c else '_') := by
  constructor
  · show (reSubNonAlnum s.data).length = _
    rw [reSubNonAlnum_eq_map, List.length_map]
  · show (reSubNonAlnum s.data)[i]? = _
    rw [reSubNonAlnum_eq_map, List.getElem?_map, h]
    rfl

/-- Witness for C3 at the concrete string `"a.b"`, position 1. -/
theorem sanitize_char_spec_witness :
    ("a.b" : String).data[1]? = some '.' ∧
    ((sanitize "a.b").data.length = ("a.b" : String).data.length ∧
     (sanitize "a.b").data[1]? = some (if isAlnumAscii '.' then '.' else '_')) :=
  ⟨by decide, sanitize_char_spec "a.b" 1 '.' (by decide)⟩

/-- C5 counterexample: with lesson `"A"`, `db_name` is NOT
`db_name_prefix ++ "_" ++ sanitize "A"` — the code lowercases the lesson
before sanitizing, so the suffix is `"a"`, not `"A"`. -/
theorem db_name_lesson_counterexample :
    ¬ ((construct "u" (some "A") "hive_metastore").db_name =
        DBAcademyHelper.db_name_prefix
          (construct "u" (some "A") "hive_metastore") ++ "_" ++
          sanitize "A") := by decide

/-- C5 amended: for every non-empty lesson label `l`, `db_name` equals
`db_name_prefix ++ "_" ++ clean_lesson` where `clean_lesson` is the
LOWERCASED lesson label with every non-alphanumeric character replaced by
`'_'`; with no lesson, `db_name` equals `db_name_prefix`. -/
theorem db_name_lesson_amended (u cat l : String) (h : l ≠ "") :
    (construct u (some l) cat).db_name =
      DBAcademyHelper.db_name_prefix (construct u (some l) cat) ++ "_" ++
        sanitize (lowerPy l) ∧
    (construct u none cat).db_name =
      DBAcademyHelper.db_name_prefix (construct u none cat) := by
  refine ⟨?_, rfl⟩
  simp [construct, h]

/-- Witness for the amended C5 at lesson `"A"`. -/
theorem db_name_lesson_amended_witness :
    ("A" : String) ≠ "" ∧
    ((construct "u" (some "A") "cat").db_name =
       DBAcademyHelper.db_name_prefix (construct "u" (some "A") "cat") ++
         "_" ++ sanitize (lowerPy "A") ∧
     (construct "u" none "cat").db_name =
       DBAcademyHelper.db_name_prefix (construct "u" none "cat")) :=
  ⟨by decide, db_name_lesson_amended "u" "cat" "A" (by decide)⟩

/-- C8: the concrete example — identity `"jane.doe@example.com"`, lesson
absent, catalog `"hive_metastore"` yields
`db_name_prefix = db_name = "dbacademy_jane_doe_example_com_ncouc"` and
catalog list `["hive_metastore"]`. -/
theorem example_jane_doe :
    DBAcademyHelper.db_name_prefix
        (construct "jane.doe@example.com" none "hive_metastore") =
      "dbacademy_jane_doe_example_com_ncouc" ∧
    (construct "jane.doe@example.com" none "hive_metastore").db_name =
      "dbacademy_jane_doe_example_com_ncouc" ∧
    (construct "jane.doe@example.com" none "hive_metastore").catalogs =
      ["hive_metastore"] := by decide

/-- C9: `working_dir_prefix` is built from the RAW username (no
sanitization), while `db_name_prefix` uses the sanitized username. -/
theorem working_dir_prefix_raw_username (u : String) (l : Option String)
    (cat : String) :
    DBAcademyHelper.working_dir_prefix (construct u l cat) =
      "dbfs:/user/" ++ u ++ "/dbacademy/" ++ "ncouc" ∧
    DBAcademyHelper.db_name_prefix (construct u l cat) =
      "dbacademy_" ++ sanitize u ++ "_" ++ "ncouc" := by
  cases l with
  | none => exact ⟨rfl, rfl⟩
  | some s => by_cases hs : s = "" <;> simp [construct, hs]

/-- Is the effect a `DROP DATABASE` statement? -/
def isDropEffect : Effect → Bool
  | Effect.dropDb _ _ => true
  | _ => false

theorem filter_beq_length_eq_one_iff {l : List String} {a : String}
    (hnd : l.Nodup) :
    ((l.filter (fun n => n == a)).length = 1) ↔ a ∈ l := by
  rw [← List.countP_eq_length_filter]
  have hcount : l.countP (fun n => n == a) = l.count a := rfl
  rw [hcount]
  constructor
  · intro h1
    exact List.count_pos_iff.mp (by omega)
  · intro hmem
    exact List.count_eq_one_of_mem hnd hmem

/-- C1: the Reset Script issues a `DROP DATABASE` for `(c, db)` exactly
when `c` is one of the helper's catalogs, `db` is listed in `c`, and `db`
starts with the helper's `db_name_prefix`; every other database in the
catalogs receives no `DROP`. -/
theorem reset_drops_iff (h : DBAcademyHelper) (dbs : String → List String)
    (c db : String) :
    Effect.dropDb c db ∈ resetTrace h dbs ↔
      c ∈ h.catalogs ∧ db ∈ dbs c ∧
        pyStartswith db ( DBAcademyHelper.db_name_prefix h) = true := by
  simp [resetTrace, List.mem_flatMap, List.mem_ite_nil_right]
  aesop

/-- C4: the catalog list is `["hive_metastore"]` when constructed with
catalog `"hive_metastore"` and `[X, "hive_metastore"]` for any other `X`;
`init`, `cleanup` and `conclude_setup` leave it unchanged. -/
theorem catalogs_spec (u : String) (l : Option String) (cat : String)
    (b : Bool) (streams : List StreamQuery) (dbs : String → List String) :
    (construct u l cat).catalogs =
      (if cat = "hive_metastore" then ["hive_metastore"]
       else [cat, "hive_metastore"]) ∧
    (DBAcademyHelper.init (construct u l cat) b).1.catalogs =
      (construct u l cat).catalogs ∧
    (∃ tr, DBAcademyHelper.cleanup (construct u l cat) streams dbs =
      Except.ok (construct u l cat, tr)) ∧
    (DBAcademyHelper.conclude_setup (construct u l cat)).1 =
      construct u l cat := by
  refine ⟨?_, rfl, ⟨_, cleanup_eq _ _ _⟩, rfl⟩
  cases l with
  | none => rfl
  | some s => by_cases hs : s = "" <;> simp [construct, hs]

/-- C6: `cleanup` cannot raise: even though `awaitTermination` can return
an error (first conjunct: a concrete raising stream), `cleanup` always
returns `ok`, its trace stopping every active stream and then running the
full database-drop phase. -/
theorem cleanup_never_raises (h : DBAcademyHelper)
    (streams : List StreamQuery) (dbs : String → List String) :
    (∃ msg, awaitTermination ⟨"s", true⟩ = Except.error msg) ∧
    DBAcademyHelper.cleanup h streams dbs =
      Except.ok (h, streams.map (fun s => Effect.stopStream s.name) ++
        cleanupDrops h dbs) :=
  ⟨⟨_, rfl⟩, cleanup_eq h streams dbs⟩

/-- C7: the `cleanup` trace is the stream-stop phase (which contains no
`DROP`) followed by the drop phase; assuming the databases listed in a
catalog `c` of the helper are distinct, the drop phase issues a
`DROP DATABASE` for `db_name` in `c` exactly when `db_name` exists in
`c`. -/
theorem cleanup_drop_iff (h : DBAcademyHelper) (streams : List StreamQuery)
    (dbs : String → List String) (c : String)
    (hc : c ∈ h.catalogs) (hnd : (dbs c).Nodup) :
    ∃ st dr, DBAcademyHelper.cleanup h streams dbs =
        Except.ok (h, st ++ dr) ∧
      st = streams.map (fun s => Effect.stopStream s.name) ∧
      dr = cleanupDrops h dbs ∧
      st.filter isDropEffect = [] ∧
      (Effect.dropDb c h.db_name ∈ dr ↔ h.db_name ∈ dbs c) := by
  refine ⟨_, _, cleanup_eq h streams dbs, rfl, rfl, ?_, ?_⟩
  · simp [List.filter_map, isDropEffect, Function.comp]
  · rw [cleanupDrops]
    simp [List.mem_flatMap, List.mem_ite_nil_right, hc]
    exact filter_beq_length_eq_one_iff hnd

/-- Witness for C7: one raising stream, one catalog containing exactly the
helper's database. -/
theorem cleanup_drop_iff_witness :
    ("hive_metastore" ∈ (construct "u" none "hive_metastore").catalogs ∧
     ((fun c => if c = "hive_metastore" then ["dbacademy_u_ncouc"]
                else ([] : List String)) "hive_metastore").Nodup) ∧
    (∃ st dr,
      DBAcademyHelper.cleanup (construct "u" none "hive_metastore")
          [⟨"s1", true⟩]
          (fun c => if c = "hive_metastore" then ["dbacademy_u_ncouc"]
                    else ([] : List String)) =
        Except.ok (construct "u" none "hive_metastore", st ++ dr) ∧
      st = ([⟨"s1", true⟩] : List StreamQuery).map
        (fun s => Effect.stopStream s.name) ∧
      dr = cleanupDrops (construct "u" none "hive_metastore")
        (fun c => if c = "hive_metastore" then ["dbacademy_u_ncouc"]
                  else ([] : List String)) ∧
      st.filter isDropEffect = [] ∧
      (Effect.dropDb "hive_metastore"
          (construct "u" none "hive_metastore").db_name ∈ dr ↔
        (construct "u" none "hive_metastore").db_name ∈
          (fun c => if c = "hive_metastore" then ["dbacademy_u_ncouc"]
                    else ([] : List String)) "hive_metastore")) :=
  ⟨⟨by decide, by decide⟩,
   cleanup_drop_iff (construct "u" none "hive_metastore") [⟨"s1", true⟩]
     (fun c => if c = "hive_metastore" then ["dbacademy_u_ncouc"]
               else ([] : List String))
     "hive_metastore" (by decide) (by decide)⟩

/-- C10: `init` with `create_db = false` only clears the cache and records
the flag: the trace is `[clearCache]`, contains no SQL statement, and
leaves the whole engine session state (active catalog, active database,
databases, configuration) unchanged. -/
theorem init_false_frame (h : DBAcademyHelper) (st : SessionState) :
    DBAcademyHelper.init h false =
      (setCreateDb h false, [Effect.clearCache]) ∧
    (DBAcademyHelper.init h false).1.create_db = some false ∧
    (DBAcademyHelper.init h false).2.filter isSqlEffect = [] ∧
    applyTrace st (DBAcademyHelper.init h false).2 = st :=
  ⟨rfl, rfl, rfl, rfl⟩
